import Mathlib

/-!
Verification of the crypto-trading-bot repository.

Shallow embeddings of:
- the client WebSocket connection manager
  (crypto-bot-mvp/frontend/src/contexts/WebSocketContext.jsx and
  components/ConnectionStatus.jsx) in namespace WS;
- the client data context (DataContext.jsx, src/unnamed/part_000) in
  namespace DataCtx;
- the Clojure HTTP data-access layer (crypto/src/crypto/api/http.clj) in
  namespace HttpApi;
- the Indicator Engine RSI, modelled from the spec because the Python
  backend source is not in the repository snapshot, in namespace Indicator.

Theorems settling the frozen claims follow the definitions.
-/

namespace DataCtx

/-- JavaScript `a || b` on optional object fields: an absent or null field is
falsy, a present object is truthy. -/
def orFalsy {α : Type} (a b : Option α) : Option α :=
  match a with
  | some x => some x
  | none => b

/-- JavaScript `list.slice(-n)` for n > 0: the last n elements, or the whole
list when it is shorter than n. -/
def sliceLast {α : Type} (n : ℕ) (l : List α) : List α :=
  l.drop (l.length - n)

/-- Shape of the price object carried inside a market_update message
(`data.price`), as read by DataContext.jsx (`data.price.price`,
`data.price.symbol`). -/
structure PriceObj where
  price : ℚ
  symbol : String
deriving DecidableEq, Repr, Inhabited

/-- Technical-indicator object pushed by the server (fields read by the
dashboard: rsi, adx, atr). -/
structure Indicators where
  rsi : ℚ
  adx : ℚ
  atr : ℚ
deriving DecidableEq, Repr, Inhabited

/-- Sentiment object pushed by the server (fields read: score, sentiment). -/
structure Sentiment where
  score : ℚ
  sentiment : String
deriving DecidableEq, Repr, Inhabited

/-- Trading-signal object pushed by the server (fields read: signal,
signal_strength). -/
structure Signal where
  signal : String
  signal_strength : String
deriving DecidableEq, Repr, Inhabited

/-- Risk object pushed by the server (fields read: position_size,
risk_percentage). -/
structure Risk where
  position_size : ℚ
  risk_percentage : ℚ
deriving DecidableEq, Repr, Inhabited

/-- The marketData record of DataContext.jsx: five data fields plus a
lastUpdate timestamp, each initially null. -/
structure MarketData where
  price : Option PriceObj
  indicators : Option Indicators
  sentiment : Option Sentiment
  signal : Option Signal
  risk : Option Risk
  lastUpdate : Option String
deriving DecidableEq, Repr

/-- Initial marketData state: every field null. -/
def initialMarketData : MarketData :=
  ⟨none, none, none, none, none, none⟩

/-- The data payload of a received message; each field may be absent. -/
structure UpdateData where
  price : Option PriceObj
  indicators : Option Indicators
  sentiment : Option Sentiment
  signal : Option Signal
  risk : Option Risk
deriving DecidableEq, Repr

/-- A received WebSocket message: a type tag and a data payload. -/
structure Message where
  type : String
  data : UpdateData
deriving DecidableEq, Repr

/-- One entry of the priceHistory buffer, as appended by DataContext.jsx. -/
structure PriceEntry where
  timestamp : String
  price : ℚ
  symbol : String
deriving DecidableEq, Repr, Inhabited

/-- maxHistoryLength constant of DataContext.jsx. -/
def maxHistoryLength : ℕ := 100

/-- The setMarketData updater of DataContext.jsx: each of the five fields is
`data.field || prev.field`, and lastUpdate is set to the current time. -/
def setMarketData (d : UpdateData) (prev : MarketData) (now : String) : MarketData :=
  { price := orFalsy d.price prev.price
    indicators := orFalsy d.indicators prev.indicators
    sentiment := orFalsy d.sentiment prev.sentiment
    signal := orFalsy d.signal prev.signal
    risk := orFalsy d.risk prev.risk
    lastUpdate := some now }

/-- The setPriceHistory updater of DataContext.jsx: when the message carries a
price, append a new entry and keep only the last maxHistoryLength entries via
slice(-maxHistoryLength); otherwise leave the history unchanged. -/
def setPriceHistory (d : UpdateData) (prev : List PriceEntry) (now : String) : List PriceEntry :=
  match d.price with
  | some p => sliceLast maxHistoryLength (prev ++ [⟨now, p.price, p.symbol⟩])
  | none => prev

/-- The useEffect body of DataContext.jsx applied to one received message:
only a message of type market_update changes marketData and priceHistory. -/
def applyMessage (msg : Message) (md : MarketData) (hist : List PriceEntry) (now : String) :
    MarketData × List PriceEntry :=
  if msg.type = "market_update" then
    (setMarketData msg.data md now, setPriceHistory msg.data hist now)
  else
    (md, hist)

/-- Processing a whole sequence of received messages, each paired with its
arrival time. -/
def applyAll (msgs : List (Message × String)) (st : MarketData × List PriceEntry) :
    MarketData × List PriceEntry :=
  msgs.foldl (fun acc m => applyMessage m.1 acc.1 acc.2 m.2) st

/-- Result record of getPriceChange. -/
structure PriceChange where
  change : ℚ
  percentage : ℚ
  direction : String
deriving DecidableEq, Repr

/-- getPriceChange of DataContext.jsx: with fewer than 2 history entries the
neutral zero record; otherwise the difference of the last two prices, that
difference as a percentage of the earlier one, and a sign-based direction. -/
def getPriceChange (priceHistory : List PriceEntry) : PriceChange :=
  if priceHistory.length < 2 then ⟨0, 0, "neutral"⟩
  else
    let current := (priceHistory.getD (priceHistory.length - 1) default).price
    let previous := (priceHistory.getD (priceHistory.length - 2) default).price
    let change := current - previous
    let percentage := change / previous * 100
    ⟨change, percentage,
      if change > 0 then "positive" else if change < 0 then "negative" else "neutral"⟩

end DataCtx

namespace WS

/-- maxReconnectAttempts constant of WebSocketContext.jsx. -/
def maxReconnectAttempts : ℕ := 5

/-- The fixed reconnection delay of WebSocketContext.jsx, in milliseconds. -/
def reconnectDelayMs : ℕ := 5000

/-- Client connection-manager state of WebSocketContext.jsx:
the connectionStatus string, the reconnectAttempts counter, whether a
reconnection timer is currently scheduled (with its delay), and whether the
terminal reconnect-failure toast has been surfaced. -/
structure WSState where
  connectionStatus : String
  reconnectAttempts : ℕ
  scheduledReconnectDelay : Option ℕ
  terminalFailure : Bool
deriving DecidableEq, Repr

/-- Initial provider state: disconnected, zero attempts, nothing scheduled. -/
def initialState : WSState :=
  ⟨"disconnected", 0, none, false⟩

/-- The connect callback: creates a socket and sets status connecting. -/
def connect (s : WSState) : WSState :=
  { s with connectionStatus := "connecting" }

/-- The ws.onopen handler: status connected, attempts reset to 0. -/
def onOpen (s : WSState) : WSState :=
  { s with connectionStatus := "connected", reconnectAttempts := 0 }

/-- The ws.onclose handler: status disconnected; while the attempt counter is
below maxReconnectAttempts schedule one reconnection after reconnectDelayMs,
otherwise schedule nothing and surface the terminal failure toast. -/
def onClose (s : WSState) : WSState :=
  if s.reconnectAttempts < maxReconnectAttempts then
    { s with connectionStatus := "disconnected", scheduledReconnectDelay := some reconnectDelayMs }
  else
    { s with connectionStatus := "disconnected", scheduledReconnectDelay := none,
             terminalFailure := true }

/-- The ws.onerror handler (and the catch branch of connect): status error. -/
def onError (s : WSState) : WSState :=
  { s with connectionStatus := "error" }

/-- The scheduled reconnection timer firing: increments the attempt counter
and calls connect; a no-op when nothing is scheduled. -/
def reconnectTimerFire (s : WSState) : WSState :=
  match s.scheduledReconnectDelay with
  | some _ => connect { s with reconnectAttempts := s.reconnectAttempts + 1,
                               scheduledReconnectDelay := none }
  | none => s

/-- The disconnect callback: closes the socket and sets status disconnected. -/
def disconnect (s : WSState) : WSState :=
  { s with connectionStatus := "disconnected" }

/-- One failed connection attempt as seen by the client: the socket closes and
the scheduled reconnection (if any) later fires. -/
def failedAttempt (s : WSState) : WSState :=
  reconnectTimerFire (onClose s)

/-- Connection-manager events. -/
inductive WSEvent
  | connectEv
  | openEv
  | messageEv
  | closeEv
  | errorEv
  | disconnectEv
deriving DecidableEq, Repr

/-- Event-step function of the connection manager. -/
def step : WSEvent → WSState → WSState
  | .connectEv, s => connect s
  | .openEv, s => onOpen s
  | .messageEv, s => s
  | .closeEv, s => onClose s
  | .errorEv, s => onError s
  | .disconnectEv, s => disconnect s

/-- The four connectionStatus values WebSocketContext.jsx ever stores. -/
def statusOk (s : WSState) : Prop :=
  s.connectionStatus ∈ (["disconnected", "connecting", "connected", "error"] : List String)

instance (s : WSState) : Decidable (statusOk s) := by
  unfold statusOk
  infer_instance

/-- The strict lifecycle chain asserted by the claim:
DISCONNECTED to CONNECTING to OPEN to (CLOSING or ERROR) to DISCONNECTED,
read as the set of allowed status transitions. -/
def specLifecycle (a b : String) : Bool :=
  ([("disconnected", "connecting"), ("connecting", "connected"),
    ("connected", "closing"), ("connected", "error"),
    ("closing", "disconnected"), ("error", "disconnected")] :
      List (String × String)).contains (a, b)

/-- The status transitions the code actually takes: a status may persist, and
each handler moves to its fixed target status (connect to connecting, onopen
to connected, onclose and disconnect to disconnected, onerror to error). -/
def actualLifecycle (a b : String) : Bool :=
  a == b ||
    (["connecting", "connected", "disconnected", "error"] : List String).contains b

/-- getStatusInfo of ConnectionStatus.jsx: display text, class and icon for a
connectionStatus value. -/
def getStatusInfo (connectionStatus : String) : String × String × String :=
  match connectionStatus with
  | "connected" => ("Connected", "status-connected", "green")
  | "connecting" => ("Connecting...", "status-connecting", "yellow")
  | "disconnected" => ("Disconnected", "status-disconnected", "red")
  | "error" => ("Connection Error", "status-disconnected", "red")
  | _ => ("Unknown", "status-disconnected", "white")

/-- ConnectionStatus.jsx shows the reconnection counter exactly when the
status is disconnected and the attempt counter is positive: the reconnecting
condition is derived, not a stored status. -/
def showReconnectCounter (s : WSState) : Bool :=
  s.connectionStatus == "disconnected" && decide (0 < s.reconnectAttempts)

end WS

namespace Indicator

/-- Consecutive differences of a list of closing prices. -/
def diffs : List ℚ → List ℚ
  | a :: b :: rest => (b - a) :: diffs (b :: rest)
  | _ => []

/-- Gains of a change series: positive changes kept, the rest zero. -/
def gains (changes : List ℚ) : List ℚ :=
  changes.map (fun c => if 0 < c then c else 0)

/-- Losses of a change series: magnitudes of negative changes, the rest zero. -/
def losses (changes : List ℚ) : List ℚ :=
  changes.map (fun c => if c < 0 then -c else 0)

/-- Wilder exponential smoothing: avg = (avg * (period - 1) + value) / period,
folded over the samples after the bootstrap window. -/
def wilderSmooth (period : ℕ) (init : ℚ) (rest : List ℚ) : ℚ :=
  rest.foldl (fun avg v => (avg * ((period : ℚ) - 1) + v) / (period : ℚ)) init

/-- Modelled from the spec: the Indicator Engine RSI (the Python backend
implementing it is not part of the repository snapshot). Wilder smoothing over
the configured period, default 14; the first period changes bootstrap the
initial average gain and loss, later changes use exponential smoothing; with
fewer than period + 1 samples RSI is reported as 50 (neutral). -/
def rsi (period : ℕ) (window : List ℚ) : ℚ :=
  if window.length < period + 1 then 50
  else
    let changes := diffs window
    let g := gains changes
    let l := losses changes
    let avgGain := wilderSmooth period ((g.take period).sum / (period : ℚ)) (g.drop period)
    let avgLoss := wilderSmooth period ((l.take period).sum / (period : ℚ)) (l.drop period)
    if avgLoss = 0 then 100 else 100 - 100 / (1 + avgGain / avgLoss)

/-- Default RSI period. -/
def defaultPeriod : ℕ := 14

end Indicator

namespace HttpApi

/-- A stored GDAX price value: the JSON document at a gdax price key, already
parsed (a symbol string and a numeric price string read with parseDouble). -/
structure StoredPrice where
  symbol : String
  price : ℚ
deriving DecidableEq, Repr

/-- A stored GDAX history entry: the JSON document of one candle, already
parsed into its six fields. -/
structure Candle where
  timestamp : String
  openPrice : ℚ
  highPrice : ℚ
  lowPrice : ℚ
  closePrice : ℚ
  volume : ℚ
deriving DecidableEq, Repr

/-- The Redis substrate as the HTTP layer sees it: key-value price documents,
per-key lists of history documents, server info, key-pattern listing, and an
optional pending exception that makes every operation throw. -/
structure Redis where
  kv : String → Option StoredPrice
  lists : String → List Candle
  info : String
  keysWith : String → List String
  exn : Option String

/-- Redis LRANGE key (-limit) -1: the last limit elements in stored order
(the whole list when limit is 0, since the start index is then 0). -/
def lrangeLast {α : Type} (l : List α) (limit : ℕ) : List α :=
  if limit = 0 then l else l.drop (l.length - limit)

/-- get-redis-data of http.clj: the value at a key, nil when the store
operation raises. -/
def getRedisData (r : Redis) (key : String) : Option StoredPrice :=
  match r.exn with
  | some _ => none
  | none => r.kv key

/-- get-redis-list of http.clj: LRANGE of the last limit entries, the empty
list when the store operation raises. -/
def getRedisList (r : Redis) (key : String) (limit : ℕ) : List Candle :=
  match r.exn with
  | some _ => []
  | none => lrangeLast (r.lists key) limit

/-- A price API response: either the formatted record or the NoData error. -/
inductive PriceResponse
  | ok (symbol : String) (price : ℚ) (timestamp : String) (source : String)
  | noData (msg : String)
deriving DecidableEq, Repr

/-- format-price-response of http.clj: a record with symbol, price, current
timestamp and source when data exists, else the NoData error map. -/
def formatPriceResponse (data : Option StoredPrice) (now : String) : PriceResponse :=
  match data with
  | some d => .ok d.symbol d.price now "clojure-gdax"
  | none => .noData "No price data available"

/-- get-gdax-price of http.clj. -/
def getGdaxPrice (r : Redis) (productId : String) (now : String) : PriceResponse :=
  formatPriceResponse (getRedisData r ("gdax:price:" ++ productId)) now

/-- One record of the history API response. -/
structure HistRecord where
  timestamp : String
  openPrice : ℚ
  highPrice : ℚ
  lowPrice : ℚ
  closePrice : ℚ
  volume : ℚ
deriving DecidableEq, Repr

/-- format-history-response of http.clj: each stored entry parsed into its
timestamp/open/high/low/close/volume record, in order. -/
def formatHistoryResponse (historyData : List Candle) : List HistRecord :=
  historyData.map (fun e =>
    ⟨e.timestamp, e.openPrice, e.highPrice, e.lowPrice, e.closePrice, e.volume⟩)

/-- get-gdax-history of http.clj. -/
def getGdaxHistory (r : Redis) (productId : String) (limit : ℕ) : List HistRecord :=
  formatHistoryResponse (getRedisList r ("gdax:history:" ++ productId) limit)

/-- A system-status API response: the success shape with redis info and
data-availability flags, or the failure shape with the exception message. -/
inductive StatusResponse
  | ok (redisInfo : String) (gdax binance twilio : Bool) (timestamp : String)
  | failed (errMsg : String) (timestamp : String)
deriving DecidableEq, Repr

/-- The redis_connected field of a system-status response. -/
def StatusResponse.redisConnected : StatusResponse → Bool
  | .ok .. => true
  | .failed .. => false

/-- get-system-status of http.clj: on success, redis info plus availability of
gdax, binance and twilio keys; when the store raises, a response with
redis_connected false carrying the exception message — never a thrown
exception. -/
def getSystemStatus (r : Redis) (now : String) : StatusResponse :=
  match r.exn with
  | some e => .failed e now
  | none =>
    .ok r.info
      (decide (0 < (r.keysWith "gdax:*").length))
      (decide (0 < (r.keysWith "binance:*").length))
      (decide (0 < (r.keysWith "twilio:*").length))
      now

end HttpApi

section Helpers

/-- A sliceLast result never exceeds the requested length. -/
theorem sliceLast_length_le {α : Type} (n : ℕ) (l : List α) :
    (DataCtx.sliceLast n l).length ≤ n := by
  unfold DataCtx.sliceLast
  rw [List.length_drop]
  omega

/-- sliceLast keeps the whole list when it is short enough. -/
theorem sliceLast_of_le {α : Type} (n : ℕ) (l : List α) (h : l.length ≤ n) :
    DataCtx.sliceLast n l = l := by
  unfold DataCtx.sliceLast
  rw [Nat.sub_eq_zero_of_le h, List.drop_zero]

/-- A sliceLast result is a suffix of the input list. -/
theorem sliceLast_suffix {α : Type} (n : ℕ) (l : List α) :
    DataCtx.sliceLast n l <:+ l :=
  List.drop_suffix _ _

/-- One applyMessage step keeps the price history within capacity. -/
theorem applyMessage_len_le (msg : DataCtx.Message) (md : DataCtx.MarketData)
    (hist : List DataCtx.PriceEntry) (now : String) (h : hist.length ≤ 100) :
    ((DataCtx.applyMessage msg md hist now).2).length ≤ 100 := by
  unfold DataCtx.applyMessage
  split
  · unfold DataCtx.setPriceHistory
    split
    · exact sliceLast_length_le _ _
    · exact h
  · exact h

/-- Any sequence of messages keeps the price history within capacity. -/
theorem applyAll_len_le (msgs : List (DataCtx.Message × String))
    (st : DataCtx.MarketData × List DataCtx.PriceEntry) (h : st.2.length ≤ 100) :
    ((DataCtx.applyAll msgs st).2).length ≤ 100 := by
  induction msgs generalizing st with
  | nil => exact h
  | cons m rest ih =>
    exact ih _ (applyMessage_len_le m.1 st.1 st.2 m.2 h)

/-- orFalsy with an absent left operand keeps the right operand. -/
theorem orFalsy_none {α : Type} (b : Option α) : DataCtx.orFalsy none b = b := rfl

/-- orFalsy with a present left operand takes it. -/
theorem orFalsy_some {α : Type} (a : α) (b : Option α) :
    DataCtx.orFalsy (some a) b = some a := rfl

/-- orFalsy never turns a set right operand into an absent result. -/
theorem orFalsy_isSome {α : Type} (a b : Option α) (h : b.isSome) :
    (DataCtx.orFalsy a b).isSome := by
  cases a <;> simp [DataCtx.orFalsy, h]

end Helpers

/-- C1: each disconnect (onclose) schedules exactly one reconnection after the
fixed 5000 ms delay while the consecutive-failure counter is below
maxReconnectAttempts = 5 and surfaces no failure then; once the counter has
reached 5, onclose schedules no reconnection and surfaces the terminal failed
state; concretely, from the initial connection, the first five failed attempts
each schedule a retry and the close after the fifth retry stops for good. -/
theorem ws_reconnect_contract :
    (∀ s : WS.WSState, s.reconnectAttempts < WS.maxReconnectAttempts →
      (WS.onClose s).scheduledReconnectDelay = some 5000 ∧
      (WS.onClose s).terminalFailure = s.terminalFailure) ∧
    (∀ s : WS.WSState, WS.maxReconnectAttempts ≤ s.reconnectAttempts →
      (WS.onClose s).scheduledReconnectDelay = none ∧
      (WS.onClose s).terminalFailure = true) ∧
    ((WS.failedAttempt^[5] (WS.connect WS.initialState)).reconnectAttempts = 5 ∧
     (∀ k : Fin 5,
       (WS.onClose (WS.failedAttempt^[k.1] (WS.connect WS.initialState))).scheduledReconnectDelay =
         some 5000) ∧
     (WS.onClose (WS.failedAttempt^[5] (WS.connect WS.initialState))).scheduledReconnectDelay =
       none ∧
     (WS.onClose (WS.failedAttempt^[5] (WS.connect WS.initialState))).terminalFailure = true) := by
  refine ⟨fun s h => ?_, fun s h => ?_, by decide⟩
  · unfold WS.onClose
    rw [if_pos h]
    exact ⟨rfl, rfl⟩
  · unfold WS.onClose
    rw [if_neg (by omega)]
    exact ⟨rfl, rfl⟩

/-- C1 witness: at a concrete state with 2 prior attempts a 5-second retry is
scheduled, and at 5 attempts nothing is scheduled. -/
theorem ws_reconnect_contract_witness :
    (WS.onClose ⟨"connected", 2, none, false⟩).scheduledReconnectDelay = some 5000 ∧
    (WS.onClose ⟨"connected", 5, none, false⟩).scheduledReconnectDelay = none :=
  ⟨(ws_reconnect_contract.1 ⟨"connected", 2, none, false⟩ (by decide)).1,
   (ws_reconnect_contract.2.1 ⟨"connected", 5, none, false⟩ (by decide)).1⟩

/-- C5 counterexample: along the reachable trace connect, onopen, onclose the
status goes from connected directly to disconnected, a transition the claimed
strict lifecycle chain (OPEN only to CLOSING or ERROR) does not allow; the
code stores no closing state at all. -/
theorem ws_lifecycle_counterexample :
    (WS.step .openEv (WS.step .connectEv WS.initialState)).connectionStatus = "connected" ∧
    (WS.step .closeEv
        (WS.step .openEv (WS.step .connectEv WS.initialState))).connectionStatus =
      "disconnected" ∧
    WS.specLifecycle "connected" "disconnected" = false := by
  decide

/-- C5 amended: the stored connection status is always one of disconnected,
connecting, connected, error — never a stored closing or reconnecting value —
and every event either keeps the status or moves it to the handler's fixed
target among those four (in particular connected can move directly to
disconnected on close); the reconnecting display condition is derived from the
attempt counter together with the disconnected status, not stored. -/
theorem ws_lifecycle_amended :
    WS.statusOk WS.initialState ∧
    (∀ (e : WS.WSEvent) (s : WS.WSState), WS.statusOk s → WS.statusOk (WS.step e s)) ∧
    (∀ (e : WS.WSEvent) (s : WS.WSState),
      WS.actualLifecycle s.connectionStatus (WS.step e s).connectionStatus = true) ∧
    (∀ s : WS.WSState, WS.statusOk s →
      s.connectionStatus ≠ "closing" ∧ s.connectionStatus ≠ "reconnecting") ∧
    (∀ s : WS.WSState, WS.showReconnectCounter s = true →
      0 < s.reconnectAttempts ∧ s.connectionStatus = "disconnected") := by
  refine ⟨by decide, fun e s h => ?_, fun e s => ?_, fun s h => ?_, fun s h => ?_⟩
  · cases e with
    | connectEv => simp [WS.step, WS.connect, WS.statusOk]
    | openEv => simp [WS.step, WS.onOpen, WS.statusOk]
    | messageEv => exact h
    | closeEv =>
      show WS.statusOk (WS.onClose s)
      unfold WS.onClose
      split <;> simp [WS.statusOk]
    | errorEv => simp [WS.step, WS.onError, WS.statusOk]
    | disconnectEv => simp [WS.step, WS.disconnect, WS.statusOk]
  · cases e with
    | connectEv => simp [WS.step, WS.connect, WS.actualLifecycle]
    | openEv => simp [WS.step, WS.onOpen, WS.actualLifecycle]
    | messageEv => simp [WS.step, WS.actualLifecycle]
    | closeEv =>
      show WS.actualLifecycle s.connectionStatus (WS.onClose s).connectionStatus = true
      unfold WS.onClose
      split <;> simp [WS.actualLifecycle]
    | errorEv => simp [WS.step, WS.onError, WS.actualLifecycle]
    | disconnectEv => simp [WS.step, WS.disconnect, WS.actualLifecycle]
  · unfold WS.statusOk at h
    simp at h
    rcases h with h | h | h | h <;> rw [h] <;> exact ⟨by decide, by decide⟩
  · unfold WS.showReconnectCounter at h
    simp at h
    exact ⟨h.2, h.1⟩

/-- C5 amended witness: one step of the manager from the initial state keeps
the status among the four stored values. -/
theorem ws_lifecycle_amended_witness :
    WS.statusOk (WS.step .connectEv WS.initialState) :=
  ws_lifecycle_amended.2.1 .connectEv WS.initialState (by decide)

/-- Appending to a buffer already at the capacity of 100 evicts exactly the
head (the oldest entry) and keeps the rest followed by the new entry. -/
theorem sliceLast_evict {α : Type} (l : List α) (e : α) (h : l.length = 100) :
    DataCtx.sliceLast 100 (l ++ [e]) = l.tail ++ [e] := by
  cases l with
  | nil => simp at h
  | cons a t =>
    simp only [List.length_cons] at h
    unfold DataCtx.sliceLast
    have hl : ((a :: t) ++ [e]).length - 100 = 1 := by
      simp only [List.length_append, List.length_cons, List.length_nil]
      omega
    rw [hl]
    simp

/-- C2: processing market_update messages keeps the price history at no more
than 100 entries (for one message and for any message sequence); an append to
a full buffer evicts exactly the oldest entry; the surviving entries are a
suffix of the old entries followed by the new one, so arrival order is kept. -/
theorem history_buffer_spec :
    (∀ (msg : DataCtx.Message) (md : DataCtx.MarketData) (hist : List DataCtx.PriceEntry)
        (now : String), hist.length ≤ 100 →
      ((DataCtx.applyMessage msg md hist now).2).length ≤ 100) ∧
    (∀ (msgs : List (DataCtx.Message × String))
        (st : DataCtx.MarketData × List DataCtx.PriceEntry),
      st.2.length ≤ 100 → ((DataCtx.applyAll msgs st).2).length ≤ 100) ∧
    (∀ (msg : DataCtx.Message) (md : DataCtx.MarketData) (hist : List DataCtx.PriceEntry)
        (now : String) (p : DataCtx.PriceObj),
      msg.type = "market_update" → msg.data.price = some p → hist.length = 100 →
      (DataCtx.applyMessage msg md hist now).2 = hist.tail ++ [⟨now, p.price, p.symbol⟩]) ∧
    (∀ (msg : DataCtx.Message) (md : DataCtx.MarketData) (hist : List DataCtx.PriceEntry)
        (now : String) (p : DataCtx.PriceObj),
      msg.type = "market_update" → msg.data.price = some p →
      (DataCtx.applyMessage msg md hist now).2 <:+ hist ++ [⟨now, p.price, p.symbol⟩]) := by
  refine ⟨applyMessage_len_le, applyAll_len_le, ?_, ?_⟩
  · intro msg md hist now p ht hp hl
    simp only [DataCtx.applyMessage, ht, if_pos, DataCtx.setPriceHistory, hp,
      DataCtx.maxHistoryLength]
    exact sliceLast_evict hist _ hl
  · intro msg md hist now p ht hp
    simp only [DataCtx.applyMessage, ht, if_pos, DataCtx.setPriceHistory, hp,
      DataCtx.maxHistoryLength]
    exact sliceLast_suffix _ _

/-- C2 witness: a market_update carrying a price appended to an empty history
keeps the buffer within capacity. -/
theorem history_buffer_spec_witness :
    ((DataCtx.applyMessage ⟨"market_update", ⟨some ⟨1, "BTC-USD"⟩, none, none, none, none⟩⟩
        DataCtx.initialMarketData [] "t0").2).length ≤ 100 :=
  history_buffer_spec.1 ⟨"market_update", ⟨some ⟨1, "BTC-USD"⟩, none, none, none, none⟩⟩
    DataCtx.initialMarketData [] "t0" (by decide)

/-- C3: a message of type other than market_update leaves marketData and the
price history unchanged; a market_update sets lastUpdate to the fresh
timestamp and stores each of the five data fields carried by the message. -/
theorem market_update_effect :
    (∀ (msg : DataCtx.Message) (md : DataCtx.MarketData) (hist : List DataCtx.PriceEntry)
        (now : String), msg.type ≠ "market_update" →
      DataCtx.applyMessage msg md hist now = (md, hist)) ∧
    (∀ (msg : DataCtx.Message) (md : DataCtx.MarketData) (hist : List DataCtx.PriceEntry)
        (now : String), msg.type = "market_update" →
      (DataCtx.applyMessage msg md hist now).1.lastUpdate = some now ∧
      (∀ p, msg.data.price = some p →
        (DataCtx.applyMessage msg md hist now).1.price = some p) ∧
      (∀ i, msg.data.indicators = some i →
        (DataCtx.applyMessage msg md hist now).1.indicators = some i) ∧
      (∀ sn, msg.data.sentiment = some sn →
        (DataCtx.applyMessage msg md hist now).1.sentiment = some sn) ∧
      (∀ sg, msg.data.signal = some sg →
        (DataCtx.applyMessage msg md hist now).1.signal = some sg) ∧
      (∀ rk, msg.data.risk = some rk →
        (DataCtx.applyMessage msg md hist now).1.risk = some rk)) := by
  constructor
  · intro msg md hist now h
    simp [DataCtx.applyMessage, h]
  · intro msg md hist now h
    refine ⟨?_, fun p hp => ?_, fun i hi => ?_, fun sn hs => ?_, fun sg hg => ?_,
        fun rk hr => ?_⟩ <;>
      simp [DataCtx.applyMessage, h, DataCtx.setMarketData, DataCtx.orFalsy, *]

/-- C3 witness: a ping message leaves state unchanged, and a market_update at
a concrete input stamps lastUpdate. -/
theorem market_update_effect_witness :
    DataCtx.applyMessage ⟨"ping", ⟨none, none, none, none, none⟩⟩
        DataCtx.initialMarketData [] "t0" = (DataCtx.initialMarketData, []) ∧
    (DataCtx.applyMessage ⟨"market_update", ⟨none, none, none, none, none⟩⟩
        DataCtx.initialMarketData [] "t1").1.lastUpdate = some "t1" :=
  ⟨market_update_effect.1 ⟨"ping", ⟨none, none, none, none, none⟩⟩
      DataCtx.initialMarketData [] "t0" (by decide),
   (market_update_effect.2 ⟨"market_update", ⟨none, none, none, none, none⟩⟩
      DataCtx.initialMarketData [] "t1" rfl).1⟩

/-- C9: in a market_update merge, a field absent from the message keeps its
previous value, a field present in the message replaces it, and a field that
was set never becomes unset again. -/
theorem market_data_no_regress :
    ∀ (msg : DataCtx.Message) (md : DataCtx.MarketData) (hist : List DataCtx.PriceEntry)
      (now : String), msg.type = "market_update" →
      ((msg.data.price = none →
         (DataCtx.applyMessage msg md hist now).1.price = md.price) ∧
       (msg.data.indicators = none →
         (DataCtx.applyMessage msg md hist now).1.indicators = md.indicators) ∧
       (msg.data.sentiment = none →
         (DataCtx.applyMessage msg md hist now).1.sentiment = md.sentiment) ∧
       (msg.data.signal = none →
         (DataCtx.applyMessage msg md hist now).1.signal = md.signal) ∧
       (msg.data.risk = none →
         (DataCtx.applyMessage msg md hist now).1.risk = md.risk)) ∧
      ((∀ p, msg.data.price = some p →
         (DataCtx.applyMessage msg md hist now).1.price = some p) ∧
       (∀ i, msg.data.indicators = some i →
         (DataCtx.applyMessage msg md hist now).1.indicators = some i) ∧
       (∀ sn, msg.data.sentiment = some sn →
         (DataCtx.applyMessage msg md hist now).1.sentiment = some sn) ∧
       (∀ sg, msg.data.signal = some sg →
         (DataCtx.applyMessage msg md hist now).1.signal = some sg) ∧
       (∀ rk, msg.data.risk = some rk →
         (DataCtx.applyMessage msg md hist now).1.risk = some rk)) ∧
      ((md.price.isSome → ((DataCtx.applyMessage msg md hist now).1.price).isSome) ∧
       (md.indicators.isSome → ((DataCtx.applyMessage msg md hist now).1.indicators).isSome) ∧
       (md.sentiment.isSome → ((DataCtx.applyMessage msg md hist now).1.sentiment).isSome) ∧
       (md.signal.isSome → ((DataCtx.applyMessage msg md hist now).1.signal).isSome) ∧
       (md.risk.isSome → ((DataCtx.applyMessage msg md hist now).1.risk).isSome)) := by
  intro msg md hist now h
  refine ⟨⟨fun hp => ?_, fun hi => ?_, fun hs => ?_, fun hg => ?_, fun hr => ?_⟩,
      ⟨fun p hp => ?_, fun i hi => ?_, fun sn hs => ?_, fun sg hg => ?_, fun rk hr => ?_⟩,
      ⟨fun hp => ?_, fun hi => ?_, fun hs => ?_, fun hg => ?_, fun hr => ?_⟩⟩
  case _ => simp [DataCtx.applyMessage, h, DataCtx.setMarketData, DataCtx.orFalsy, hp]
  case _ => simp [DataCtx.applyMessage, h, DataCtx.setMarketData, DataCtx.orFalsy, hi]
  case _ => simp [DataCtx.applyMessage, h, DataCtx.setMarketData, DataCtx.orFalsy, hs]
  case _ => simp [DataCtx.applyMessage, h, DataCtx.setMarketData, DataCtx.orFalsy, hg]
  case _ => simp [DataCtx.applyMessage, h, DataCtx.setMarketData, DataCtx.orFalsy, hr]
  case _ => simp [DataCtx.applyMessage, h, DataCtx.setMarketData, DataCtx.orFalsy, hp]
  case _ => simp [DataCtx.applyMessage, h, DataCtx.setMarketData, DataCtx.orFalsy, hi]
  case _ => simp [DataCtx.applyMessage, h, DataCtx.setMarketData, DataCtx.orFalsy, hs]
  case _ => simp [DataCtx.applyMessage, h, DataCtx.setMarketData, DataCtx.orFalsy, hg]
  case _ => simp [DataCtx.applyMessage, h, DataCtx.setMarketData, DataCtx.orFalsy, hr]
  case _ =>
    simp only [DataCtx.applyMessage, h, if_pos, DataCtx.setMarketData]
    exact orFalsy_isSome _ _ hp
  case _ =>
    simp only [DataCtx.applyMessage, h, if_pos, DataCtx.setMarketData]
    exact orFalsy_isSome _ _ hi
  case _ =>
    simp only [DataCtx.applyMessage, h, if_pos, DataCtx.setMarketData]
    exact orFalsy_isSome _ _ hs
  case _ =>
    simp only [DataCtx.applyMessage, h, if_pos, DataCtx.setMarketData]
    exact orFalsy_isSome _ _ hg
  case _ =>
    simp only [DataCtx.applyMessage, h, if_pos, DataCtx.setMarketData]
    exact orFalsy_isSome _ _ hr

/-- C9 witness: a market_update with no price field leaves a previously set
price in place. -/
theorem market_data_no_regress_witness :
    (DataCtx.applyMessage ⟨"market_update", ⟨none, none, none, none, none⟩⟩
        ⟨some ⟨7, "BTC-USD"⟩, none, none, none, none, some "t0"⟩ [] "t1").1.price =
      some ⟨7, "BTC-USD"⟩ :=
  (market_data_no_regress ⟨"market_update", ⟨none, none, none, none, none⟩⟩
      ⟨some ⟨7, "BTC-USD"⟩, none, none, none, none, some "t0"⟩ [] "t1" rfl).1.1 rfl

/-- Reading one short of the end of a list extended by two elements gives the
second of the two. -/
theorem getD_append_two_right {α : Type} [Inhabited α] (l : List α) (a b : α) :
    (l ++ [a, b]).getD (l.length + 1) default = b := by
  induction l with
  | nil => rfl
  | cons x xs ih => simpa using ih

/-- Reading two short of the end of a list extended by two elements gives the
first of the two. -/
theorem getD_append_two_left {α : Type} [Inhabited α] (l : List α) (a b : α) :
    (l ++ [a, b]).getD l.length default = a := by
  induction l with
  | nil => rfl
  | cons x xs ih => simpa using ih

/-- C10: getPriceChange is total: with fewer than 2 entries it returns the
zero record with neutral direction; with 2 or more entries it returns the
difference of the last two prices, that difference as a percentage of the
earlier of the two, and a sign-based direction; the direction is always
exactly one of positive, negative, neutral. -/
theorem getPriceChange_total_spec :
    (∀ h : List DataCtx.PriceEntry, h.length < 2 →
      DataCtx.getPriceChange h = ⟨0, 0, "neutral"⟩) ∧
    (∀ (l : List DataCtx.PriceEntry) (a b : DataCtx.PriceEntry),
      DataCtx.getPriceChange (l ++ [a, b]) =
        ⟨b.price - a.price, (b.price - a.price) / a.price * 100,
          if b.price - a.price > 0 then "positive"
          else if b.price - a.price < 0 then "negative" else "neutral"⟩) ∧
    (∀ h : List DataCtx.PriceEntry,
      (DataCtx.getPriceChange h).direction ∈
        (["positive", "negative", "neutral"] : List String)) := by
  refine ⟨fun h hh => ?_, fun l a b => ?_, fun h => ?_⟩
  · unfold DataCtx.getPriceChange
    rw [if_pos hh]
  · have hlen : (l ++ [a, b]).length = l.length + 2 := by
      simp only [List.length_append, List.length_cons, List.length_nil]
    unfold DataCtx.getPriceChange
    rw [if_neg (by omega)]
    have h1 : (l ++ [a, b]).length - 1 = l.length + 1 := by omega
    have h2 : (l ++ [a, b]).length - 2 = l.length := by omega
    simp only [h1, h2, getD_append_two_right, getD_append_two_left]
  · unfold DataCtx.getPriceChange
    split
    · simp
    · dsimp only
      split
      · simp
      · split <;> simp

/-- C10 witness: the empty history yields the neutral zero record. -/
theorem getPriceChange_total_spec_witness :
    DataCtx.getPriceChange [] = ⟨0, 0, "neutral"⟩ :=
  getPriceChange_total_spec.1 [] (by decide)

/-- C4: with a history window of fewer than period + 1 samples the RSI of the
Indicator Engine is exactly 50, never an undefined or partial value. -/
theorem rsi_insufficient_neutral :
    ∀ (period : ℕ) (window : List ℚ), window.length < period + 1 →
      Indicator.rsi period window = 50 := by
  intro p w h
  unfold Indicator.rsi
  rw [if_pos h]

/-- C4 witness: a 5-sample window at the default period of 14 gives RSI 50. -/
theorem rsi_insufficient_neutral_witness :
    Indicator.rsi Indicator.defaultPeriod [100, 102, 104, 103, 105] = 50 :=
  rsi_insufficient_neutral Indicator.defaultPeriod [100, 102, 104, 103, 105] (by decide)

/-- C6: with a working store, the latest-price query returns the NoData error
map exactly when no price is stored under the product's key, and otherwise a
record carrying the stored symbol, the stored numeric price, the current
timestamp and the clojure-gdax source tag. -/
theorem gdax_price_nodata_iff :
    ∀ (r : HttpApi.Redis) (productId now : String), r.exn = none →
      ((HttpApi.getGdaxPrice r productId now = .noData "No price data available" ↔
        r.kv ("gdax:price:" ++ productId) = none) ∧
       (∀ d : HttpApi.StoredPrice, r.kv ("gdax:price:" ++ productId) = some d →
        HttpApi.getGdaxPrice r productId now = .ok d.symbol d.price now "clojure-gdax")) := by
  intro r productId now hex
  unfold HttpApi.getGdaxPrice HttpApi.getRedisData
  rw [hex]
  constructor
  · cases hk : r.kv ("gdax:price:" ++ productId) <;>
      simp [HttpApi.formatPriceResponse]
  · intro d hd
    rw [hd]
    rfl

/-- C6 witness: a store holding a BTC-USD price answers with the record, and
an empty store answers NoData. -/
theorem gdax_price_nodata_iff_witness :
    HttpApi.getGdaxPrice
        ⟨fun k => if k = "gdax:price:BTC-USD" then some ⟨"BTC-USD", 50000⟩ else none,
         fun _ => [], "redis", fun _ => [], none⟩ "BTC-USD" "t0" =
      .ok "BTC-USD" 50000 "t0" "clojure-gdax" :=
  (gdax_price_nodata_iff
      ⟨fun k => if k = "gdax:price:BTC-USD" then some ⟨"BTC-USD", 50000⟩ else none,
       fun _ => [], "redis", fun _ => [], none⟩ "BTC-USD" "t0" rfl).2
    ⟨"BTC-USD", 50000⟩ (by decide)

/-- C7: with a working store and a requested limit of at least 1, the
historical-data query returns exactly the limit most recently stored entries —
all of them when fewer exist — as parsed records in stored order (the taken
entries are a suffix of the stored list). -/
theorem gdax_history_spec :
    ∀ (r : HttpApi.Redis) (productId : String) (n : ℕ), r.exn = none → 1 ≤ n →
      (((r.lists ("gdax:history:" ++ productId)).length ≤ n →
        HttpApi.getGdaxHistory r productId n =
          HttpApi.formatHistoryResponse (r.lists ("gdax:history:" ++ productId))) ∧
       (n ≤ (r.lists ("gdax:history:" ++ productId)).length →
        (HttpApi.getGdaxHistory r productId n).length = n) ∧
       (HttpApi.getGdaxHistory r productId n =
          HttpApi.formatHistoryResponse
            ((r.lists ("gdax:history:" ++ productId)).drop
              ((r.lists ("gdax:history:" ++ productId)).length - n)) ∧
        (r.lists ("gdax:history:" ++ productId)).drop
            ((r.lists ("gdax:history:" ++ productId)).length - n) <:+
          r.lists ("gdax:history:" ++ productId))) := by
  intro r productId n hex hn
  unfold HttpApi.getGdaxHistory HttpApi.getRedisList HttpApi.lrangeLast
  rw [hex]
  rw [if_neg (by omega)]
  refine ⟨fun h => ?_, fun h => ?_, rfl, List.drop_suffix _ _⟩
  · rw [Nat.sub_eq_zero_of_le h, List.drop_zero]
  · unfold HttpApi.formatHistoryResponse
    rw [List.length_map, List.length_drop]
    omega

/-- C7 witness: three stored candles with limit 2 give the last two in order. -/
theorem gdax_history_spec_witness :
    HttpApi.getGdaxHistory
        ⟨fun _ => none,
         fun k => if k = "gdax:history:BTC-USD" then
             [⟨"t1", 1, 2, 0, 1, 10⟩, ⟨"t2", 2, 3, 1, 2, 11⟩, ⟨"t3", 3, 4, 2, 3, 12⟩]
           else [],
         "redis", fun _ => [], none⟩ "BTC-USD" 2 =
      [⟨"t2", 2, 3, 1, 2, 11⟩, ⟨"t3", 3, 4, 2, 3, 12⟩] := by
  have h := (gdax_history_spec
      ⟨fun _ => none,
       fun k => if k = "gdax:history:BTC-USD" then
           [⟨"t1", 1, 2, 0, 1, 10⟩, ⟨"t2", 2, 3, 1, 2, 11⟩, ⟨"t3", 3, 4, 2, 3, 12⟩]
         else [],
       "redis", fun _ => [], none⟩ "BTC-USD" 2 rfl (by decide)).2.2.1
  rw [h]
  decide

/-- C8: when the store raises, get-redis-data answers nil, get-redis-list the
empty list, and get-system-status a well-formed response with redis_connected
false carrying the exception message — no exception reaches the caller. -/
theorem store_failure_degrades :
    ∀ (r : HttpApi.Redis) (e key : String) (n : ℕ) (now : String), r.exn = some e →
      HttpApi.getRedisData r key = none ∧
      HttpApi.getRedisList r key n = [] ∧
      HttpApi.getSystemStatus r now = .failed e now ∧
      (HttpApi.getSystemStatus r now).redisConnected = false := by
  intro r e key n now hex
  unfold HttpApi.getRedisData HttpApi.getRedisList HttpApi.getSystemStatus
  rw [hex]
  exact ⟨rfl, rfl, rfl, rfl⟩

/-- C8 witness: a store with a pending connection-refused exception degrades
every read. -/
theorem store_failure_degrades_witness :
    HttpApi.getRedisData
        ⟨fun _ => none, fun _ => [], "redis", fun _ => [], some "connection refused"⟩
        "gdax:price:BTC-USD" = none ∧
    (HttpApi.getSystemStatus
        ⟨fun _ => none, fun _ => [], "redis", fun _ => [], some "connection refused"⟩
        "t0").redisConnected = false :=
  ⟨(store_failure_degrades
      ⟨fun _ => none, fun _ => [], "redis", fun _ => [], some "connection refused"⟩
      "connection refused" "gdax:price:BTC-USD" 1 "t0" rfl).1,
   (store_failure_degrades
      ⟨fun _ => none, fun _ => [], "redis", fun _ => [], some "connection refused"⟩
      "connection refused" "gdax:price:BTC-USD" 1 "t0" rfl).2.2.2⟩
